import Mathlib

/-!
Verification development for the Amazon shopping assistant's query
understanding and product decision engine.

The Python source is shallowly embedded:
* strings are Lean `String`s, manipulated as `List Char`;
* the regular expressions of `query_parser.py` and `conversation.py` are
  embedded by a small, executable matching library with ordered
  backtracking (`P` below), so that `re.search` semantics — leftmost
  match, alternatives tried in written order, greedy and lazy repetition —
  are reproduced; `re.IGNORECASE` is modelled by case-folding during
  literal comparison;
* numbers (`float` in Python) are modelled as `ℚ`; `math.log` is an
  uninterpreted function parameter since no verified claim depends on its
  values; `round(x, 2)` is modelled exactly on `ℚ`;
* Python's `try/except` fallbacks are modelled by explicit failure
  oracles where a claim is about the failure path;
* in-place dictionary mutation is modelled by returning the post-call
  value of the mutated objects (see `rank_post_state` and
  `handle_followup_query`).
-/

/-- Characters of a string. -/
abbrev Chars := List Char

/-- Convenience: the character list of a string literal. -/
def cs (s : String) : Chars := s.data

/-- Lower-case a character list (models Python `str.lower()`). -/
def lowerChars (l : Chars) : Chars := l.map Char.toLower

/-- Python `str.capitalize()`: first character upper-cased, the rest
lower-cased. -/
def capitalizeChars : Chars → Chars
  | [] => []
  | a :: t => a.toUpper :: t.map Char.toLower

/-- Does `hay` start with `needle` (character-exact)? -/
def startsCS : Chars → Chars → Bool
  | [], _ => true
  | _ :: _, [] => false
  | a :: as, b :: bs => a == b && startsCS as bs

/-- Python `needle in hay` on strings: substring containment. -/
def containsSeq (needle : Chars) : Chars → Bool
  | [] => startsCS needle []
  | s@(_ :: t) => startsCS needle s || containsSeq needle t

/-- Substring test on `String`s, models Python `needle in hay`. -/
def strIn (needle hay : String) : Bool := containsSeq needle.data hay.data

/-- Python whitespace class `\s`. -/
def wsChar (c : Char) : Bool :=
  c == ' ' || c == '\t' || c == '\n' || c == '\r' || c == '\x0b' || c == '\x0c'

/-- Regex class `[A-Za-z]` (inputs are ASCII). -/
def alphaChar (c : Char) : Bool :=
  ('a' ≤ c && c ≤ 'z') || ('A' ≤ c && c ≤ 'Z')

/-- Regex class `\d`. -/
def digitChar (c : Char) : Bool := '0' ≤ c && c ≤ '9'

/-- Regex word class `\w = [A-Za-z0-9_]`, used for `\b` boundaries. -/
def wordChar (c : Char) : Bool := alphaChar c || digitChar c || c == '_'

/-- Python `str.strip()`: whitespace removed from both ends. -/
def stripChars (l : Chars) : Chars :=
  ((l.dropWhile (fun c => wsChar c)).reverse.dropWhile (fun c => wsChar c)).reverse

/-!
## Ordered-backtracking pattern matchers

A matcher consumes a character list from the front and returns every
possible `(captured groups, remaining input)` outcome, ordered by the
backtracking priority of Python's `re` engine (first result = the one
`re.search` commits to).
-/

/-- Captured groups, in order of appearance. -/
abbrev Caps := List Chars

/-- A pattern: all parses of some input, highest backtracking priority
first. -/
abbrev P := Chars → List (Caps × Chars)

/-- The empty pattern. -/
def pEps : P := fun s => [([], s)]

/-- Drop a case-insensitive literal (pattern side lower-case). -/
def stripLitCI : Chars → Chars → Option Chars
  | [], s => some s
  | _ :: _, [] => none
  | w :: ws, c :: rest => if c.toLower == w then stripLitCI ws rest else none

/-- Drop a case-sensitive literal. -/
def stripLitCS : Chars → Chars → Option Chars
  | [], s => some s
  | _ :: _, [] => none
  | w :: ws, c :: rest => if c == w then stripLitCS ws rest else none

/-- Case-insensitive literal pattern (models `re.IGNORECASE` literals). -/
def pLitCI (w : Chars) : P := fun s =>
  match stripLitCI w s with
  | some r => [([], r)]
  | none => []

/-- Case-sensitive literal pattern. -/
def pLitCS (w : Chars) : P := fun s =>
  match stripLitCS w s with
  | some r => [([], r)]
  | none => []

/-- Sequential composition; capture lists concatenate. -/
def pSeq (p q : P) : P := fun s =>
  (p s).flatMap fun pr => (q pr.2).map fun qr => (pr.1 ++ qr.1, qr.2)

/-- Ordered alternation, as in a regex `a|b|c`. -/
def pAlt (ps : List P) : P := fun s => ps.flatMap fun p => p s

/-- Greedy option `x?`: try matching first, then the empty parse. -/
def pOpt (p : P) : P := fun s => p s ++ [([], s)]

/-- All splits `(run, rest)` of the input where `run` is a (possibly
empty) run of class characters, shortest run first. -/
def splitsL (cls : Char → Bool) : Chars → List (Chars × Chars)
  | [] => [([], [])]
  | a :: as =>
    ([], a :: as) ::
      (if cls a then (splitsL cls as).map (fun pr => (a :: pr.1, pr.2)) else [])

/-- Greedy star over a character class (e.g. `\s*`). -/
def pStarG (cls : Char → Bool) : P := fun s =>
  ((splitsL cls s).reverse).map fun pr => (([] : Caps), pr.2)

/-- Greedy plus over a character class, no capture (e.g. `\s+`). -/
def pPlusG (cls : Char → Bool) : P := fun s =>
  ((splitsL cls s).reverse).filterMap fun pr =>
    if pr.1.isEmpty then none else some (([] : Caps), pr.2)

/-- Lazy plus over a character class, no capture. -/
def pPlusL (cls : Char → Bool) : P := fun s =>
  (splitsL cls s).filterMap fun pr =>
    if pr.1.isEmpty then none else some (([] : Caps), pr.2)

/-- End of input (`$`). -/
def pEnd : P := fun s => match s with | [] => [([], [])] | _ :: _ => []

/-- Exactly one character of a class (e.g. the `\s` of `(?:\s|$)`). -/
def pCharCls (cls : Char → Bool) : P := fun s =>
  match s with
  | c :: rest => if cls c then [([], rest)] else []
  | [] => []

/-- Wrap a pattern as a capturing group: the consumed characters become
one captured group (inner captures are not nested in these regexes). -/
def pCap (p : P) : P := fun s =>
  (p s).map fun pr => ([s.take (s.length - pr.2.length)], pr.2)

/-- Lazy capturing plus over a character class (e.g. `(.+?)` or
`([A-Za-z\s]+?)`). -/
def pLazyCap (cls : Char → Bool) : P := fun s =>
  (splitsL cls s).filterMap fun pr =>
    if pr.1.isEmpty then none else some (([pr.1] : Caps), pr.2)

/-- Greedy capturing plus over a character class (e.g. `([A-Za-z]+)`). -/
def pGreedyCap (cls : Char → Bool) : P := fun s =>
  ((splitsL cls s).reverse).filterMap fun pr =>
    if pr.1.isEmpty then none else some (([pr.1] : Caps), pr.2)

/-- Ordered alternation of case-insensitive literals. -/
def pAltLits (ws : List String) : P := pAlt (ws.map fun w => pLitCI (cs w))

/-- `re.search`: try the pattern at every position, leftmost first; the
first successful parse's captures are returned. -/
def searchP (p : P) : Chars → Option Caps
  | [] =>
    match p [] with
    | r :: _ => some r.1
    | [] => none
  | a :: t =>
    match p (a :: t) with
    | r :: _ => some r.1
    | [] => searchP p t

/-- Boolean `re.search` (a match exists). -/
def searchB (p : P) (s : Chars) : Bool := (searchP p s).isSome

/-- Digits to a natural number (models Python `int` on a digit string). -/
def digitsToNat (l : Chars) : ℕ :=
  l.foldl (fun acc c => acc * 10 + (c.toNat - '0'.toNat)) 0

/-- A captured `\d+(\.\d+)?` group as an exact rational (models Python
`float(...)` on such a group; decimal literals are exact here). -/
def capToRat (l : Chars) : ℚ :=
  let ip := l.takeWhile (fun c => digitChar c)
  let rest := l.drop ip.length
  let fp := match rest with
    | '.' :: f => f
    | _ => []
  (digitsToNat ip : ℚ) + (digitsToNat fp : ℚ) / ((10 : ℚ) ^ fp.length)

/-- Word-boundary occurrence: `re.search(r'\b<kl>\b', t)` for a literal
`kl` (used by the relevance scorer's whole-word bonus). -/
def wbAt (prev : Option Char) (kl : Chars) (s : Chars) : Bool :=
  match kl with
  | [] => false
  | k0 :: _ =>
    let bBefore := match prev with
      | none => wordChar k0
      | some pc => wordChar pc != wordChar k0
    let rest := s.drop kl.length
    let kLast := kl.getLastD k0
    let bAfter := match rest.head? with
      | none => wordChar kLast
      | some nc => wordChar kLast != wordChar nc
    bBefore && startsCS kl s && bAfter

/-- Scan all positions for a word-boundary occurrence of `kl` in `t`. -/
def wordBoundaryMatch (kl : Chars) (t : Chars) : Bool :=
  go none t
where
  go (prev : Option Char) : Chars → Bool
    | [] => wbAt prev kl []
    | s@(c :: rest) => wbAt prev kl s || go (some c) rest

/-!
## Data model

`Query` mirrors the dictionary built by
`QueryParser.parse_shopping_query` (`query_parser.py`): an absent or
`None` value is `none`, so downstream `dict.get` defaults coincide with
the field defaults. `Product` mirrors the product dictionaries produced
by the search collaborator, restricted to the fields this core reads,
plus the `score` key that `rank_products` writes (absent = `none`).
-/

/-- The `price_range` sub-dictionary of a parsed query. -/
structure PriceRange where
  min : Option ℚ
  max : Option ℚ
  deriving DecidableEq, Repr

/-- A parsed shopping query (`parsed` in `parse_shopping_query`). -/
structure Query where
  product_type : Option String
  price_range : PriceRange
  rating_min : Option ℤ
  prime_shipping : Bool
  keywords : List String
  exact_rating_min : Option ℚ
  origin_country : Option String
  material : Option String
  excluded_terms : List String
  deriving DecidableEq, Repr

/-- The all-defaults query dictionary. -/
def emptyQuery : Query :=
  { product_type := none
    price_range := { min := none, max := none }
    rating_min := none
    prime_shipping := false
    keywords := []
    exact_rating_min := none
    origin_country := none
    material := none
    excluded_terms := [] }

/-- A product record dictionary, restricted to the keys this core reads;
`score` is the key `rank_products` writes in place (`none` = absent). -/
structure Product where
  title : String
  price_value : ℚ
  rating_value : ℚ
  review_count : ℕ
  has_prime : Bool
  link : String
  score : Option ℚ
  deriving DecidableEq, Repr

/-- A plan step dictionary; only the `action` key is read by the decision
logic (a missing key is modelled by `""`, which equals no action name).  -/
structure PlanStep where
  action : String
  deriving DecidableEq, Repr

/-- Python `if x:` truthiness for an optional string (`None` and `""` are
falsy). -/
def optStrTruthy : Option String → Bool
  | none => false
  | some s => !(s == "")

/-- Python `round(x, 2)`. On the exact rationals of this model we round
half-up to 2 decimal places; the half-even/binary-float subtleties of
Python floats are immaterial to every verified claim. -/
def roundQ2 (x : ℚ) : ℚ := ((⌊x * 100 + 1 / 2⌋ : ℤ) : ℚ) / 100

/-!
## `ProductAnalyzer._apply_advanced_filters` (`product_analyzer.py`)
-/

/-- One product passes the exact-rating threshold
(`p.get('rating_value', 0) >= exact_rating`). -/
def ratingPasses (e : ℚ) (p : Product) : Bool := decide (e ≤ p.rating_value)

/-- The exact-rating stage: active only when `exact_rating_min` is set
and truthy-positive (`if exact_rating and exact_rating > 0`). -/
def ratingStage (products : List Product) (q : Query) : List Product :=
  match q.exact_rating_min with
  | some e => if 0 < e then products.filter (fun p => ratingPasses e p) else products
  | none => products

/-- Country-of-origin title test: `"made in X" in title or "from X" in
title or "X made" in title`, all lower-cased. -/
def originMatch (countryLower : Chars) (p : Product) : Bool :=
  let t := lowerChars (cs p.title)
  containsSeq (cs "made in " ++ countryLower) t ||
  containsSeq (cs "from " ++ countryLower) t ||
  containsSeq (countryLower ++ cs " made") t

/-- The origin stage core: the filter is applied only when at least one
record matches (`if country_matches: filtered_products = country_matches`). -/
def originStageCore (countryLower : Chars) (l : List Product) : List Product :=
  let ms := l.filter (fun p => originMatch countryLower p)
  if ms.isEmpty then l else ms

/-- The origin stage, guarded by `if origin_country:` truthiness. -/
def originStage (l : List Product) (q : Query) : List Product :=
  match q.origin_country with
  | some c => if c == "" then l else originStageCore (lowerChars (cs c)) l
  | none => l

/-- The material stage (`material_lower in title`), guarded by
`if material:`. -/
def materialStage (l : List Product) (q : Query) : List Product :=
  match q.material with
  | some m =>
    if m == "" then l
    else l.filter (fun p => containsSeq (lowerChars (cs m)) (lowerChars (cs p.title)))
  | none => l

/-- The excluded-terms stage: one filter pass per term, in order. -/
def excludeStage (l : List Product) (q : Query) : List Product :=
  q.excluded_terms.foldl
    (fun acc t => acc.filter
      (fun p => !(containsSeq (lowerChars (cs t)) (lowerChars (cs p.title)))))
    l

/-- `ProductAnalyzer._apply_advanced_filters`: the four stages in source
order (exact rating, origin, material, excluded terms). -/
def apply_advanced_filters (products : List Product) (q : Query) : List Product :=
  excludeStage (materialStage (originStage (ratingStage products q) q) q) q

/-- The list actually scored by `rank_products`: the advanced-filter
result, falling back to the original input when filtering emptied a
non-empty input (`if not filtered_products and products`). -/
def effectiveFiltered (products : List Product) (q : Query) : List Product :=
  let f := apply_advanced_filters products q
  if f.isEmpty && !products.isEmpty then products else f

/-!
## `ProductAnalyzer._calculate_relevance_score` and the scoring loop
-/

/-- `_calculate_relevance_score(title, parsed_query)` with `title`
already lower-cased by the caller. -/
def calculate_relevance_score (title : Chars) (q : Query) : ℚ :=
  let typeScore : ℚ :=
    match q.product_type with
    | some pt => if !(pt == "") && containsSeq (lowerChars (cs pt)) title then 5 else 0
    | none => 0
  let keyword_matches : ℚ :=
    q.keywords.foldl
      (fun acc kw =>
        let kl := lowerChars (cs kw)
        if containsSeq kl title then
          acc + 1 + (if wordBoundaryMatch kl title then 1 / 2 else 0)
        else acc)
      0
  let keywordScore : ℚ :=
    if q.keywords.isEmpty then 0
    else min 10 ((keyword_matches / (q.keywords.length : ℚ)) * 10)
  let originScore : ℚ :=
    match q.origin_country with
    | some c => if !(c == "") && containsSeq (lowerChars (cs c)) title then 3 else 0
    | none => 0
  let materialScore : ℚ :=
    match q.material with
    | some m => if !(m == "") && containsSeq (lowerChars (cs m)) title then 3 else 0
    | none => 0
  min 20 (typeScore + keywordScore + originScore + materialScore)

/-- The scoring-loop body of `rank_products`: the weighted sum of the
five components, rounded to 2 decimals and written into the record's
`score` key. `ln` is the uninterpreted stand-in for `math.log`. -/
def scoreProduct (ln : ℚ → ℚ) (q : Query) (p : Product) : Product :=
  let ratingScore : ℚ := p.rating_value * 6 * (3 / 10)
  let reviewScore : ℚ :=
    if 0 < p.review_count then
      min 20 (ln ((p.review_count : ℚ) + 1) * 2) * (2 / 10)
    else 0
  let primeScore : ℚ :=
    if p.has_prime && q.prime_shipping then 10 * (1 / 10) else 0
  let priceScore : ℚ :=
    if 0 < p.price_value then
      let inRange :=
        (match q.price_range.min with
         | none => true
         | some mn => decide (mn ≤ p.price_value)) &&
        (match q.price_range.max with
         | none => true
         | some mx => decide (p.price_value ≤ mx))
      (if inRange then (20 : ℚ) else 5) * (2 / 10)
    else 0
  let relevance : ℚ :=
    calculate_relevance_score (lowerChars (cs p.title)) q * (2 / 10)
  { p with score := some (roundQ2 (ratingScore + reviewScore + primeScore + priceScore + relevance)) }

/-- Sort key of the final `sorted(...)` call: `x.get('score', 0)`. -/
def keyScore (p : Product) : ℚ := p.score.getD 0

/-- The ordering relation of `sorted(key=score, reverse=True)`: `a` may
precede `b` iff `b`'s key does not exceed `a`'s. Any stable sort by this
relation is observationally identical to Python's stable sort. -/
def scoreRel (a b : Product) : Prop := keyScore b ≤ keyScore a

instance : DecidableRel scoreRel := fun a b =>
  inferInstanceAs (Decidable (keyScore b ≤ keyScore a))

instance : IsTotal Product scoreRel :=
  ⟨fun a b => le_total (keyScore b) (keyScore a)⟩

instance : IsTrans Product scoreRel :=
  ⟨fun _ _ _ h1 h2 => le_trans h2 h1⟩

/-- `ProductAnalyzer.rank_products`. The `fail` oracle models the
`except` branch: `some k` means a Python exception interrupted the
scoring loop before its `k`-th iteration (exceptions can only arise from
ill-typed record data, which the typed model cannot express directly).
On failure the source returns the caller's `products` list — whose first
`k` filtered records were already mutated in place with their scores.
With `fail = none` the scored, filtered records are stably sorted by
descending score. -/
def rank_products (ln : ℚ → ℚ) (fail : Option ℕ) (products : List Product)
    (q : Query) : List Product :=
  let fl := effectiveFiltered products q
  match fail with
  | some k => products.map (fun p => if p ∈ fl.take k then scoreProduct ln q p else p)
  | none => List.insertionSort scoreRel (fl.map (scoreProduct ln q))

/-- The value of the caller's `products` list after a successful
`rank_products` call: the loop wrote a `score` into every record of the
effective filtered list, in place (the same dictionary objects the
caller holds). -/
def rank_post_state (ln : ℚ → ℚ) (products : List Product) (q : Query) :
    List Product :=
  let fl := effectiveFiltered products q
  products.map (fun p => if p ∈ fl then scoreProduct ln q p else p)

/-- Erase the `score` key (for stating which fields a call preserved). -/
def clearScore (p : Product) : Product := { p with score := none }

/-!
## `QueryParser.parse_shopping_query` (`query_parser.py`)

Each regular expression of the source is spelled out with the
combinators above, sub-pattern for sub-pattern and alternative for
alternative, in source order. All of these regexes carry
`re.IGNORECASE`, hence the `CI` literals; captures keep the input's
characters (the model case-folds only where the source calls
`.lower()`/`.capitalize()`).
-/

/-- Any character, as matched by `.` (no DOTALL: newline excluded). -/
def dotChar (c : Char) : Bool := !(c == '\n')

/-- `[A-Za-z\s]`, the class of the excluded-terms capture. -/
def alphaWsChar (c : Char) : Bool := alphaChar c || wsChar c

/-- `(?:find|get|show|search for)?\s*(?:a|an|some)?\s*(.+?)(?:\s+under|\s+with|\s+that|\s+for|\s+less than|\s+above|\s+below|\s+rated|\s+by|\s+from|$)` -/
def productTypePat : P :=
  pSeq (pOpt (pAltLits ["find", "get", "show", "search for"]))
    (pSeq (pStarG wsChar)
      (pSeq (pOpt (pAltLits ["a", "an", "some"]))
        (pSeq (pStarG wsChar)
          (pSeq (pLazyCap dotChar)
            (pAlt
              ((["under", "with", "that", "for", "less than", "above", "below",
                 "rated", "by", "from"].map
                  (fun w => pSeq (pPlusG wsChar) (pLitCI (cs w)))) ++ [pEnd]))))))

/-- `\s*\$?` followed by a captured `(\d+(?:\.\d+)?)` — the shared tail
of the two price-bound patterns. -/
def priceTail : P :=
  pSeq (pStarG wsChar)
    (pSeq (pOpt (pLitCI (cs "$")))
      (pCap (pSeq (pPlusG digitChar)
        (pOpt (pSeq (pLitCI (cs ".")) (pPlusG digitChar))))))

/-- `(?:under|less than|below|max|maximum|up to)\s*\$?(\d+(?:\.\d+)?)` -/
def maxPricePat : P :=
  pSeq (pAltLits ["under", "less than", "below", "max", "maximum", "up to"]) priceTail

/-- `(?:over|more than|above|min|minimum|starting from|at least)\s*\$?(\d+(?:\.\d+)?)` -/
def minPricePat : P :=
  pSeq (pAltLits ["over", "more than", "above", "min", "minimum",
                  "starting from", "at least"]) priceTail

/-- `\$?(\d+(?:\.\d+)?)\s*(?:to|-)\s*\$?(\d+(?:\.\d+)?)` -/
def priceRangePat : P :=
  pSeq (pOpt (pLitCI (cs "$")))
    (pSeq (pCap (pSeq (pPlusG digitChar)
        (pOpt (pSeq (pLitCI (cs ".")) (pPlusG digitChar)))))
      (pSeq (pStarG wsChar)
        (pSeq (pAltLits ["to", "-"])
          (pSeq (pStarG wsChar)
            (pSeq (pOpt (pLitCI (cs "$")))
              (pCap (pSeq (pPlusG digitChar)
                (pOpt (pSeq (pLitCI (cs ".")) (pPlusG digitChar))))))))))

/-- `(?:rated|rating|stars?|reviews?)\s*(?:of|with|above|at least)?\s*` —
the shared head of the two rating patterns (`stars?` is `star`+optional
`s`, likewise `reviews?`). -/
def ratingHead : P :=
  pSeq (pAlt [pLitCI (cs "rated"), pLitCI (cs "rating"),
              pSeq (pLitCI (cs "star")) (pOpt (pLitCI (cs "s"))),
              pSeq (pLitCI (cs "review")) (pOpt (pLitCI (cs "s")))])
    (pSeq (pStarG wsChar)
      (pSeq (pOpt (pAltLits ["of", "with", "above", "at least"]))
        (pStarG wsChar)))

/-- `\+?\s*(?:stars?|or above|or higher|and above)` — the shared tail. -/
def ratingTail : P :=
  pSeq (pOpt (pLitCI (cs "+")))
    (pSeq (pStarG wsChar)
      (pAlt [pSeq (pLitCI (cs "star")) (pOpt (pLitCI (cs "s"))),
             pLitCI (cs "or above"), pLitCI (cs "or higher"),
             pLitCI (cs "and above")]))

/-- The exact-rating pattern, capture `(\d+\.\d+)` (decimal required). -/
def exactRatingPat : P :=
  pSeq ratingHead
    (pSeq (pCap (pSeq (pPlusG digitChar)
        (pSeq (pLitCI (cs ".")) (pPlusG digitChar))))
      ratingTail)

/-- The whole-star rating pattern, capture `(\d+)`. -/
def intRatingPat : P :=
  pSeq ratingHead (pSeq (pCap (pPlusG digitChar)) ratingTail)

/-- `(?:made in|from|manufactured in)\s+([A-Za-z]+)(?:\s|$)` -/
def originPat : P :=
  pSeq (pAltLits ["made in", "from", "manufactured in"])
    (pSeq (pPlusG wsChar)
      (pSeq (pGreedyCap alphaChar)
        (pAlt [pCharCls wsChar, pEnd])))

/-- `(?:made of|made from|in)\s+([A-Za-z]+)\s+(?:material|fabric|metal|wood)` -/
def materialPat1 : P :=
  pSeq (pAltLits ["made of", "made from", "in"])
    (pSeq (pPlusG wsChar)
      (pSeq (pGreedyCap alphaChar)
        (pSeq (pPlusG wsChar)
          (pAltLits ["material", "fabric", "metal", "wood"]))))

/-- `([A-Za-z]+)(?:\s+material|\s+made)` -/
def materialPat2 : P :=
  pSeq (pGreedyCap alphaChar)
    (pAlt [pSeq (pPlusG wsChar) (pLitCI (cs "material")),
           pSeq (pPlusG wsChar) (pLitCI (cs "made"))])

/-- `(?:with)?\s*(?:prime|fast|quick|rapid|express)\s*(?:shipping|delivery)` -/
def primePat : P :=
  pSeq (pOpt (pLitCI (cs "with")))
    (pSeq (pStarG wsChar)
      (pSeq (pAltLits ["prime", "fast", "quick", "rapid", "express"])
        (pSeq (pStarG wsChar) (pAltLits ["shipping", "delivery"]))))

/-- The tail `(?:\s+and|\s+with|\s+that|\s+for|$)` shared by the
exclusion patterns and the second keyword pattern. -/
def clauseTail : P :=
  pAlt ((["and", "with", "that", "for"].map
          (fun w => pSeq (pPlusG wsChar) (pLitCI (cs w)))) ++ [pEnd])

/-- `(?:without|no|not|exclud(?:e|ing))\s+([A-Za-z\s]+?)(?:\s+and|\s+with|\s+that|\s+for|$)` -/
def excludePat1 : P :=
  pSeq (pAlt [pLitCI (cs "without"), pLitCI (cs "no"), pLitCI (cs "not"),
              pSeq (pLitCI (cs "exclud")) (pAlt [pLitCI (cs "e"), pLitCI (cs "ing")])])
    (pSeq (pPlusG wsChar) (pSeq (pLazyCap alphaWsChar) clauseTail))

/-- The apostrophe character (U+0027). -/
def apos : Char := Char.ofNat 39

/-- `don't want\s+([A-Za-z\s]+?)(?:\s+and|\s+with|\s+that|\s+for|$)` -/
def excludePat2 : P :=
  pSeq (pLitCI (['d', 'o', 'n', apos, 't', ' ', 'w', 'a', 'n', 't']))
    (pSeq (pPlusG wsChar) (pSeq (pLazyCap alphaWsChar) clauseTail))

/-- `(?:with|has|having|include|includes|including|contain|contains|containing)\s+(.+?)(?:\s+and|\s+with|\s+that|\s+for|\s+under|$)` -/
def keywordPat1 : P :=
  pSeq (pAltLits ["with", "has", "having", "include", "includes", "including",
                  "contain", "contains", "containing"])
    (pSeq (pPlusG wsChar)
      (pSeq (pLazyCap dotChar)
        (pAlt ((["and", "with", "that", "for", "under"].map
                 (fun w => pSeq (pPlusG wsChar) (pLitCI (cs w)))) ++ [pEnd]))))

/-- `(?:that is|which is|that are|which are)\s+(.+?)(?:\s+and|\s+with|\s+that|\s+for|$)` -/
def keywordPat2 : P :=
  pSeq (pAltLits ["that is", "which is", "that are", "which are"])
    (pSeq (pPlusG wsChar) (pSeq (pLazyCap dotChar) clauseTail))

/-!
`re.split(r'\s*(?:,|and|or)\s*', s)`: leftmost, non-overlapping
delimiter matches; each delimiter is maximal whitespace, one of the
literals `,`/`and`/`or` (tried in order), then maximal whitespace.
-/

/-- Try to read one split delimiter at the head of the input. -/
def matchDelimAt (s : Chars) : Option Chars :=
  let t := s.dropWhile (fun c => wsChar c)
  let afterLit : Option Chars :=
    match stripLitCS (cs ",") t with
    | some r => some r
    | none =>
      match stripLitCS (cs "and") t with
      | some r => some r
      | none => stripLitCS (cs "or") t
  afterLit.map (fun r => r.dropWhile (fun c => wsChar c))

/-- The split scan, with fuel bounded by the input length (each found
delimiter consumes at least one character). -/
def splitConjAux : ℕ → Chars → Chars → List Chars
  | _, acc, [] => [acc.reverse]
  | 0, acc, rest => [acc.reverse ++ rest]
  | fuel + 1, acc, s@(a :: t) =>
    match matchDelimAt s with
    | some rest => acc.reverse :: splitConjAux fuel [] rest
    | none => splitConjAux fuel (a :: acc) t

/-- `re.split(r'\s*(?:,|and|or)\s*', s)`. -/
def splitConj (s : Chars) : List Chars := splitConjAux (s.length + 1) [] s

/-- `[t.strip() for t in re.split(..., grp.strip()) if t.strip()]` — the
post-processing both the exclusion and the keyword branches apply to a
captured phrase. -/
def splitTerms (grp : Chars) : List String :=
  (((splitConj (stripChars grp)).map stripChars).filter
      (fun t => !t.isEmpty)).map (fun t => String.mk t)

/-- The body of `parse_shopping_query`'s `try` block: every extraction
pattern applied independently, in source order, overwriting defaults. -/
def parse_body (u : String) : Query :=
  let s := cs u
  let productType : Option String :=
    match searchP productTypePat s with
    | some (c :: _) => some (String.mk (stripChars c))
    | _ => none
  let maxPrice0 : Option ℚ :=
    match searchP maxPricePat s with
    | some (c :: _) => some (capToRat c)
    | _ => none
  let minPrice0 : Option ℚ :=
    match searchP minPricePat s with
    | some (c :: _) => some (capToRat c)
    | _ => none
  let bounds : Option ℚ × Option ℚ :=
    match searchP priceRangePat s with
    | some (c1 :: c2 :: _) => (some (capToRat c1), some (capToRat c2))
    | _ => (minPrice0, maxPrice0)
  let ratings : Option ℚ × Option ℤ :=
    match searchP exactRatingPat s with
    | some (c :: _) => (some (capToRat c), some ⌊capToRat c⌋)
    | _ =>
      (none,
        match searchP intRatingPat s with
        | some (c :: _) => some ((digitsToNat c : ℤ))
        | _ => none)
  let originAndKw : Option String × List String :=
    match searchP originPat s with
    | some (c :: _) =>
      let oc := capitalizeChars c
      (some (String.mk oc), [String.mk (cs "made in " ++ oc)])
    | _ => (none, [])
  let materialv : Option String :=
    match searchP materialPat1 s with
    | some (c :: _) => some (String.mk (lowerChars c))
    | _ =>
      match searchP materialPat2 s with
      | some (c :: _) => some (String.mk (lowerChars c))
      | _ => none
  let primev : Bool := searchB primePat s
  let excl : List String :=
    (match searchP excludePat1 s with
     | some (c :: _) => splitTerms c
     | _ => []) ++
    (match searchP excludePat2 s with
     | some (c :: _) => splitTerms c
     | _ => [])
  let kws : List String :=
    (match searchP keywordPat1 s with
     | some (c :: _) => splitTerms c
     | _ => []) ++
    (match searchP keywordPat2 s with
     | some (c :: _) => splitTerms c
     | _ => [])
  { product_type := productType
    price_range := { min := bounds.1, max := bounds.2 }
    rating_min := ratings.2
    prime_shipping := primev
    keywords := originAndKw.2 ++ kws
    exact_rating_min := ratings.1
    origin_country := originAndKw.1
    material := materialv
    excluded_terms := excl }

/-- `QueryParser.parse_shopping_query`. The `err` oracle models a Python
exception inside the `try` block; the `except` branch returns the
minimal dictionary `{product_type: query, price_range: {min: None, max:
None}, rating_min: None, prime_shipping: False, keywords: []}` — whose
absent advanced keys read back as the defaults of `Query`. The function
is total for every oracle value: it never throws to its caller. -/
def parse_shopping_query (err : Bool) (u : String) : Query :=
  if err then { emptyQuery with product_type := some u }
  else parse_body u

/-!
## `ConversationManager._should_perform_research` (`conversation.py`)
-/

/-- The quality-signal terms of `_should_perform_research`. -/
def qualityTerms : List String :=
  ["quality", "reliable", "durable", "best", "top", "premium"]

/-- The high-value test of `_should_perform_research`:
`price_max = query.get('price_range', {}).get('max', 0)` followed by
`if price_max and price_max > 100` (`None` and `0` are falsy). -/
def highValueCheck : Option ℚ → Bool
  | some m => decide (m ≠ 0) && decide (100 < m)
  | none => false

/-- `ConversationManager._should_perform_research(query)` against the
active plan: a research-flavoured plan step, a price ceiling truthy and
above 100, or a quality term occurring in the space-joined, lower-cased
keyword text. -/
def should_perform_research (plan : List PlanStep) (q : Query) : Bool :=
  let research_in_plan :=
    plan.any (fun st => st.action == "analyze_reviews" || st.action == "research")
  let high_value := highValueCheck q.price_range.max
  let joined := lowerChars (cs (String.intercalate " " q.keywords))
  let quality_focus := qualityTerms.any (fun t => containsSeq (cs t) joined)
  research_in_plan || high_value || quality_focus

/-!
## `ConversationManager.handle_followup_query` (`conversation.py`)

`modified_query = self.current_query.copy()` is a **shallow** copy: the
`price_range` sub-dictionary and the `keywords` list are shared between
the copy and the prior active query, so in-place updates to them are
visible through both, while top-level key rebindings stay private to the
copy.  The model therefore returns both the refined query and the value
the prior query holds after the call.  The product-number branch
dispatches to the review/research handlers without producing a query;
`raised` models the `TypeError` of `current_min + 100` when the prior
query's `min` is `None` (`dict.get('min', 0)` returns the stored `None`,
not the default, because the key is present).
-/

/-- Outcome of `handle_followup_query` (plus the implicit state of the
prior query object). -/
inductive FollowupOutcome where
  | reviewsOf (n : ℕ)
  | researchOf (n : ℕ)
  | raised
  | refined (modified origAfter : Query)
  deriving DecidableEq, Repr

/-- `re.search(r'#?(\d+)', m)`: the first digit run, as a number. -/
def numSel (m : Chars) : Option ℕ :=
  match searchP (pSeq (pOpt (pLitCS (cs "#"))) (pCap (pPlusG digitChar))) m with
  | some (c :: _) => some (digitsToNat c)
  | _ => none

/-- The product-number dispatch at the top of `handle_followup_query`;
`none` means control falls through to refinement merging. -/
def earlyDispatch (m : Chars) (nProducts : ℕ) : Option FollowupOutcome :=
  match numSel m with
  | some n =>
    if 1 ≤ n && n ≤ nProducts then
      if containsSeq (cs "reviews") m || containsSeq (cs "what do people say") m then
        some (.reviewsOf n)
      else if containsSeq (cs "details") m || containsSeq (cs "specs") m ||
              containsSeq (cs "more about") m then
        some (.researchOf n)
      else none
    else none
  | none => none

/-- `any(term in message_lower for term in [...])` helper. -/
def anyTermIn (terms : List String) (m : Chars) : Bool :=
  terms.any (fun t => containsSeq (cs t) m)

/-- The feature-refinement table of `handle_followup_query`: each entry
is the keyword appended when its pattern fires on `message_lower`.
These patterns carry no `re.IGNORECASE`, so the upper-case literals of
the first two can never match the lower-cased message — reproduced
faithfully with case-sensitive literals. -/
def featurePatterns : List (P × String) :=
  [ (pSeq (pLitCS (cs "with"))
      (pSeq (pPlusG wsChar)
        (pSeq (pCap (pPlusG digitChar))
          (pSeq (pStarG wsChar)
            (pSeq (pLitCS (cs "GB"))
              (pSeq (pPlusG wsChar) (pLitCS (cs "RAM"))))))), "RAM"),
    (pSeq (pLitCS (cs "more")) (pSeq (pPlusG wsChar) (pLitCS (cs "RAM"))), "more RAM"),
    (pSeq (pLitCS (cs "larger")) (pSeq (pPlusG wsChar) (pLitCS (cs "screen"))), "larger screen"),
    (pSeq (pCap (pPlusG digitChar)) (pSeq (pStarG wsChar) (pLitCS (cs "inch"))), "inch"),
    (pSeq (pLitCS (cs "better")) (pSeq (pPlusG wsChar) (pLitCS (cs "battery"))), "long battery"),
    (pLitCS (cs "faster"), "fast"),
    (pLitCS (cs "lightweight"), "lightweight"),
    (pAlt [pLitCS (cs "slim"), pLitCS (cs "thin")], "slim"),
    (pLitCS (cs "portable"), "portable") ]

/-- The feature-refinement loop: append each fired keyword unless it is
already present. -/
def featureLoop (m : Chars) (kws : List String) : List String :=
  featurePatterns.foldl
    (fun acc pr =>
      if searchB pr.1 m && !(acc.contains pr.2) then acc ++ [pr.2] else acc)
    kws

/-- `re.search(r'by\s+([A-Za-z]+)', message_lower)` of the brand branch. -/
def brandPat : P :=
  pSeq (pLitCS (cs "by")) (pSeq (pPlusG wsChar) (pGreedyCap alphaChar))

/-- The refinement steps after the price branch: rating, features,
shipping and brand, applied to the shared keyword list and the copy's
top-level keys; finally both the refined copy and the prior query's
post-call value are assembled. -/
def mergeRest (m : Chars) (q : Query) (pr : PriceRange) : FollowupOutcome :=
  let ratingHit := anyTermIn ["better rating", "higher rating", "top rated", "best reviews"] m
  let kw1 := featureLoop m q.keywords
  let kw2 :=
    match searchP brandPat m with
    | some (c :: _) => kw1 ++ [String.mk (capitalizeChars c)]
    | _ => kw1
  let primeHit :=
    containsSeq (cs "prime") m || containsSeq (cs "fast shipping") m ||
    containsSeq (cs "quick delivery") m
  let modified : Query :=
    { q with
        price_range := pr
        keywords := kw2
        rating_min := if ratingHit then some 4 else q.rating_min
        exact_rating_min := if ratingHit then some (9 / 2) else q.exact_rating_min
        prime_shipping := if primeHit then true else q.prime_shipping }
  let origAfter : Query := { q with price_range := pr, keywords := kw2 }
  .refined modified origAfter

/-- The refinement-merge path (everything after the product-number
dispatch): the price branches mutate the shared `price_range`. -/
def mergePart (m : Chars) (q : Query) : FollowupOutcome :=
  if anyTermIn ["cheaper", "less expensive", "lower price", "budget"] m then
    match q.price_range.max with
    | some cmax =>
      if cmax ≠ 0 then
        mergeRest m q { q.price_range with max := some (cmax - min (cmax * (2 / 10)) 100) }
      else mergeRest m q q.price_range
    | none => mergeRest m q q.price_range
  else if anyTermIn ["more expensive", "higher quality", "premium", "better"] m then
    match q.price_range.min with
    | some cmin => mergeRest m q { q.price_range with min := some (cmin + 100) }
    | none => .raised
  else mergeRest m q q.price_range

/-- `ConversationManager.handle_followup_query(message)` against the
active query and the current product count. -/
def handle_followup_query (message : String) (q : Query) (nProducts : ℕ) :
    FollowupOutcome :=
  let m := lowerChars (cs message)
  match earlyDispatch m nProducts with
  | some out => out
  | none => mergePart m q

/-- The refined copy a follow-up merge produced, if any. -/
def followupModified (message : String) (q : Query) (nProducts : ℕ) :
    Option Query :=
  match handle_followup_query message q nProducts with
  | .refined modified _ => some modified
  | _ => none

/-- The prior active query's value after a follow-up merge, if one ran. -/
def followupOrigAfter (message : String) (q : Query) (nProducts : ℕ) :
    Option Query :=
  match handle_followup_query message q nProducts with
  | .refined _ origAfter => some origAfter
  | _ => none

/-!
## The research cache and the deep-research collaborator (`conversation.py`,
`product_researcher.py`)

`ProductResearcher.research_product` is the underlying deep-research
collaborator call (page navigation plus inference requests); it holds no
cache of its own.  `ConversationManager` keeps the session cache
`self.researched_products`, keyed by product link.  The model records
each collaborator invocation in a call log, and the research payloads
are produced by an oracle (their content is irrelevant to the caching
claims).
-/

/-- Abstract deep-research payload. -/
abbrev RRec := String

/-- Session-scoped research state: the `researched_products` cache and
the log of `ProductResearcher.research_product` invocations (for
products with a link — an empty link returns early before any expensive
work). -/
structure Session where
  cache : List (String × RRec)
  calls : List String
  deriving DecidableEq, Repr

/-- The fresh session (`self.researched_products = {}`). -/
def emptySession : Session := { cache := [], calls := [] }

/-- One `ProductResearcher.research_product` invocation on a product
whose link is non-empty: the expensive collaborator work happens and is
logged; no cache is consulted or updated here. -/
def researcherCall (oracle : String → RRec) (s : Session) (link : String) :
    Session × RRec :=
  ({ s with calls := s.calls ++ [link] }, oracle link)

/-- `ConversationManager._research_product` (the "specs"/"details"
path): an empty link returns early; otherwise the cache is consulted,
and only a miss invokes the collaborator and stores the record. -/
def research_product_path (oracle : String → RRec) (s : Session) (p : Product) :
    Session :=
  if p.link == "" then s
  else
    match s.cache.lookup p.link with
    | some _ => s
    | none =>
      let (s1, r) := researcherCall oracle s p.link
      { s1 with cache := s1.cache ++ [(p.link, r)] }

/-- `ConversationManager._deep_review_analysis` (the "reviews" path) has
the identical guard-cache-invoke-store structure for the top product. -/
def deep_review_analysis_path (oracle : String → RRec) (s : Session)
    (p : Product) : Session :=
  if p.link == "" then s
  else
    match s.cache.lookup p.link with
    | some _ => s
    | none =>
      let (s1, r) := researcherCall oracle s p.link
      { s1 with cache := s1.cache ++ [(p.link, r)] }

/-- `ConversationManager._compare_products_deeply` (the "compare" path):
first the wrapper loop researches each of the top three linked products
through the cache; then, when at least two remain,
`ProductResearcher.compare_multiple_products` is called — and its body
invokes `research_product` again for every compared product, without
consulting the conversation cache. -/
def compare_products_deeply_path (oracle : String → RRec) (s : Session)
    (products : List Product) : Session :=
  let step :=
    (products.take 3).foldl
      (fun (acc : Session × List Product) p =>
        if p.link == "" then acc
        else
          match acc.1.cache.lookup p.link with
          | some _ => (acc.1, acc.2 ++ [p])
          | none =>
            let (s1, r) := researcherCall oracle acc.1 p.link
            ({ s1 with cache := s1.cache ++ [(p.link, r)] }, acc.2 ++ [p]))
      (s, [])
  if step.2.length < 2 then step.1
  else
    (step.2.take 3).foldl
      (fun acc p => (researcherCall oracle acc p.link).1)
      step.1

/-- The research step of `ConversationManager._execute_search`: when
research is warranted and results exist, the top product is researched
**without** a cache lookup, and the result is stored under its link (an
empty link stores the researcher's early-return default without any
expensive work). -/
def execute_search_research (oracle : String → RRec) (s : Session)
    (top : Product) : Session :=
  if top.link == "" then
    { s with cache := s.cache ++ [(top.link, "")] }
  else
    let (s1, r) := researcherCall oracle s top.link
    { s1 with cache := s1.cache ++ [(top.link, r)] }

/-!
## Helper lemmas
-/

/-- Score-class filter. -/
def scoreClass (c : ℚ) : Product → Bool := fun p => decide (keyScore p = c)

/-- `orderedInsert` w.r.t. `scoreRel` inserts an element before exactly
the strictly smaller keys, so each score class gains the new element at
its front when it belongs there and is otherwise untouched. -/
theorem filter_orderedInsert_scoreClass (c : ℚ) (x : Product) :
    ∀ l : List Product,
      (List.orderedInsert scoreRel x l).filter (scoreClass c) =
        if keyScore x = c then x :: l.filter (scoreClass c)
        else l.filter (scoreClass c) := by
  intro l
  induction l with
  | nil =>
    by_cases hx : keyScore x = c <;>
      simp [List.orderedInsert, scoreClass, hx]
  | cons y t ih =>
    by_cases hr : scoreRel x y
    · rw [List.orderedInsert_of_le _ _ hr]
      by_cases hx : keyScore x = c <;> simp [scoreClass, hx]
    · have hstep : List.orderedInsert scoreRel x (y :: t) =
          y :: List.orderedInsert scoreRel x t := by
        simp [List.orderedInsert, hr]
      rw [hstep]
      have hyx : keyScore x < keyScore y := lt_of_not_le hr
      by_cases hy : keyScore y = c
      · have hxc : keyScore x ≠ c := by
          intro hxc; rw [hxc, hy] at hyx; exact lt_irrefl _ hyx
        simp [scoreClass, hy, hxc, ih, List.filter_cons]
      · by_cases hx : keyScore x = c <;>
          simp [scoreClass, hy, hx, ih, List.filter_cons]

/-- Stability of the insertion sort used to model Python's stable
`sorted`: each score class keeps its input order. -/
theorem filter_insertionSort_scoreClass (c : ℚ) :
    ∀ l : List Product,
      (List.insertionSort scoreRel l).filter (scoreClass c) =
        l.filter (scoreClass c) := by
  intro l
  induction l with
  | nil => rfl
  | cons x t ih =>
    show (List.orderedInsert scoreRel x (List.insertionSort scoreRel t)).filter
        (scoreClass c) = _
    rw [filter_orderedInsert_scoreClass]
    by_cases hx : keyScore x = c <;> simp [scoreClass, hx, ih, List.filter_cons]

/-- Each advanced-filter stage returns a sublist of its input. -/
theorem ratingStage_sublist (products : List Product) (q : Query) :
    (ratingStage products q).Sublist products := by
  unfold ratingStage
  cases q.exact_rating_min with
  | none => exact List.Sublist.refl _
  | some e =>
    by_cases h : (0 : ℚ) < e
    · simp only [if_pos h]; exact List.filter_sublist _
    · simp only [if_neg h]; exact List.Sublist.refl _

/-- The origin stage returns a sublist of its input. -/
theorem originStage_sublist (l : List Product) (q : Query) :
    (originStage l q).Sublist l := by
  unfold originStage originStageCore
  cases q.origin_country with
  | none => exact List.Sublist.refl _
  | some cty =>
    by_cases hc : cty == ""
    · simp only [if_pos hc]; exact List.Sublist.refl _
    · simp only [if_neg hc]
      by_cases hm : (l.filter (fun p => originMatch (lowerChars (cs cty)) p)).isEmpty
      · simp only [hm, if_pos]; exact List.Sublist.refl _
      · simp only [hm, if_neg, Bool.false_eq_true, not_false_iff]
        exact List.filter_sublist _

/-- The material stage returns a sublist of its input. -/
theorem materialStage_sublist (l : List Product) (q : Query) :
    (materialStage l q).Sublist l := by
  unfold materialStage
  cases q.material with
  | none => exact List.Sublist.refl _
  | some m =>
    by_cases hm : m == ""
    · simp only [if_pos hm]; exact List.Sublist.refl _
    · simp only [if_neg hm]; exact List.filter_sublist _

/-- The excluded-terms stage returns a sublist of its input. -/
theorem excludeStage_sublist (l : List Product) (q : Query) :
    (excludeStage l q).Sublist l := by
  unfold excludeStage
  generalize q.excluded_terms = ts
  induction ts generalizing l with
  | nil => exact List.Sublist.refl _
  | cons t ts ih =>
    exact (ih (l.filter _)).trans (List.filter_sublist _)

/-- The advanced-filter pipeline returns a sublist of its input. -/
theorem apply_advanced_filters_sublist (products : List Product) (q : Query) :
    (apply_advanced_filters products q).Sublist products :=
  (excludeStage_sublist _ _).trans
    ((materialStage_sublist _ _).trans
      ((originStage_sublist _ _).trans (ratingStage_sublist _ _)))

/-- The effective filtered list is a sublist of the input, so the
relative order of its records is the input's. -/
theorem effectiveFiltered_sublist (products : List Product) (q : Query) :
    (effectiveFiltered products q).Sublist products := by
  unfold effectiveFiltered
  by_cases h : (apply_advanced_filters products q).isEmpty && !products.isEmpty
  · simp only [if_pos h]; exact List.Sublist.refl _
  · simp only [if_neg h]; exact apply_advanced_filters_sublist products q

/-- Scoring a record writes only its `score` key. -/
theorem clearScore_scoreProduct (ln : ℚ → ℚ) (q : Query) (p : Product) :
    clearScore (scoreProduct ln q p) = clearScore p := rfl

/-!
## Claims
-/

/-- C4: for every utterance string, `parse_shopping_query` is total (it
is a function for every value of the internal-error oracle, never
throwing to its caller), and on the internal-error path it returns the
minimal query whose `product_type` is the whole utterance while every
other field holds its empty/default value. -/
theorem c4_parse_error_fallback (u : String) :
    parse_shopping_query true u =
      { product_type := some u
        price_range := { min := none, max := none }
        rating_min := none
        prime_shipping := false
        keywords := []
        exact_rating_min := none
        origin_country := none
        material := none
        excluded_terms := [] } := rfl

set_option maxRecDepth 100000 in
/-- C10: on the utterance `"rated at least 4.5 stars"`, which states
only a rating threshold, the parser sets `exact_rating_min` to 4.5 —
and, because the minimum-price pattern requires no dollar sign, the
phrase `at least 4.5` also matches it, so the same number lands in
`price_range.min` (with `rating_min` the floored star value). -/
theorem c10_rating_threshold_leaks_into_min_price :
    (parse_shopping_query false "rated at least 4.5 stars").exact_rating_min =
        some (9 / 2) ∧
      (parse_shopping_query false "rated at least 4.5 stars").price_range.min =
        some (9 / 2) ∧
      (parse_shopping_query false "rated at least 4.5 stars").rating_min =
        some 4 := by
  refine ⟨?_, ?_, ?_⟩ <;> with_unfolding_all decide

/-- C5: the research-trigger decision returns `true` exactly when the
active plan contains an `analyze_reviews` or `research` step, or the
query's price ceiling exceeds 100, or one of the quality-signal terms
occurs in the query's (space-joined, lower-cased) keyword text; it
returns `false` otherwise. -/
theorem c5_research_trigger_iff (plan : List PlanStep) (q : Query) :
    should_perform_research plan q = true ↔
      (∃ st ∈ plan, st.action = "analyze_reviews" ∨ st.action = "research") ∨
      (∃ m : ℚ, q.price_range.max = some m ∧ 100 < m) ∨
      (∃ t ∈ qualityTerms,
        containsSeq (cs t)
          (lowerChars (cs (String.intercalate " " q.keywords))) = true) := by
  have hv : highValueCheck q.price_range.max = true ↔
      ∃ m : ℚ, q.price_range.max = some m ∧ 100 < m := by
    cases hq : q.price_range.max with
    | none => simp [highValueCheck]
    | some m =>
      simp only [highValueCheck, Bool.and_eq_true, decide_eq_true_eq,
        Option.some.injEq]
      constructor
      · rintro ⟨-, h⟩; exact ⟨m, rfl, h⟩
      · rintro ⟨m', hm', h⟩
        cases hm'
        exact ⟨fun h0 => by simp [h0] at h; linarith, h⟩
  simp only [should_perform_research, Bool.or_eq_true, List.any_eq_true,
    beq_iff_eq, hv]
  rw [or_assoc]

/-- C2: for a non-empty input, the advanced filtering stage of
`rank_products` returns a non-empty list; whenever the filter pipeline
(e.g. via the `material` stage) would zero out the set, the stage falls
back to the pre-filter input set; and origin filtering activates only
when at least one record matches — otherwise it is skipped, leaving its
input unchanged. -/
theorem c2_filter_nonempty_guard (products : List Product) (q : Query)
    (country : Chars) (h1 : products ≠ [])
    (h2 : (ratingStage products q).filter
        (fun p => originMatch country p) = []) :
    effectiveFiltered products q ≠ [] ∧
      (apply_advanced_filters products q = [] →
        effectiveFiltered products q = products) ∧
      originStageCore country (ratingStage products q) =
        ratingStage products q := by
  have hp : products.isEmpty = false := by
    cases products with
    | nil => exact absurd rfl h1
    | cons a t => rfl
  have heq : effectiveFiltered products q =
      if ((apply_advanced_filters products q).isEmpty && !products.isEmpty) = true
      then products else apply_advanced_filters products q := rfl
  refine ⟨?_, ?_, ?_⟩
  · rw [heq]
    split_ifs with hcond
    · exact h1
    · intro hnil
      apply hcond
      rw [hnil, hp]
      rfl
  · intro hf
    rw [heq, hf, hp]
    simp
  · unfold originStageCore
    rw [h2]
    simp

/-- A concrete product record used by several witnesses. -/
def pX : Product :=
  { title := "x", price_value := 0, rating_value := 4, review_count := 0,
    has_prime := false, link := "", score := none }

/-- A second concrete product record. -/
def pY : Product :=
  { title := "y", price_value := 0, rating_value := 0, review_count := 0,
    has_prime := false, link := "", score := none }

set_option maxRecDepth 100000 in
/-- Witness for C2 at a concrete input. -/
theorem c2_filter_nonempty_guard_witness :
    ([pX] : List Product) ≠ [] ∧
      ((ratingStage [pX] emptyQuery).filter
        (fun p => originMatch (cs "france") p) = []) ∧
      (effectiveFiltered [pX] emptyQuery ≠ [] ∧
        (apply_advanced_filters [pX] emptyQuery = [] →
          effectiveFiltered [pX] emptyQuery = [pX]) ∧
        originStageCore (cs "france") (ratingStage [pX] emptyQuery) =
          ratingStage [pX] emptyQuery) :=
  ⟨by with_unfolding_all decide, by with_unfolding_all decide,
    c2_filter_nonempty_guard [pX] emptyQuery (cs "france")
      (by with_unfolding_all decide) (by with_unfolding_all decide)⟩

/-- C6: on the non-failure path, the ranked output is sorted by score
descending (`scoreRel` orders by descending `score` key, missing key =
0); every score class of the output equals the same class of the scored
effective-filter list, so records with equal computed scores keep their
relative order; and the effective-filter list is a sublist of the input,
so that order is the input order. -/
theorem c6_stable_descending_rank (ln : ℚ → ℚ) (products : List Product)
    (q : Query) :
    List.Sorted scoreRel (rank_products ln none products q) ∧
      (∀ c : ℚ,
        (rank_products ln none products q).filter (scoreClass c) =
          ((effectiveFiltered products q).map (scoreProduct ln q)).filter
            (scoreClass c)) ∧
      (effectiveFiltered products q).Sublist products := by
  refine ⟨?_, ?_, effectiveFiltered_sublist products q⟩
  · exact List.sorted_insertionSort scoreRel _
  · intro c
    exact filter_insertionSort_scoreClass c _

/-- An uninterpreted stand-in for `math.log` used at concrete inputs
(its values are irrelevant when `review_count` is 0). -/
def ln0 : ℚ → ℚ := fun _ => 0

set_option maxRecDepth 100000 in
/-- Counterexample for C3: if a Python exception interrupts the scoring
loop after the first record (e.g. a second record with an ill-typed
`review_count`), `rank_products` returns the input list in input order —
but the first record keeps its already-computed score 7.2 ≠ 0, so the
failure result is not "the input records with score 0". -/
theorem c3_counterexample :
    rank_products ln0 (some 1) [pX, pY] emptyQuery =
        [{ pX with score := some (36 / 5) }, pY] ∧
      ¬((36 : ℚ) / 5 = 0 ∨ ({ pX with score := some (36 / 5) } : Product).score = none) := by
  constructor
  · with_unfolding_all decide
  · with_unfolding_all decide

/-- C3 (amended): on any internal failure, ranking never raises and
returns the caller's records in their original order, with every field
except `score` untouched; when the failure precedes any scoring (the
failure point `0`), the input comes back entirely unchanged — records
scored before a later failure point retain their computed scores. -/
theorem c3_rank_failure_returns_inputs (ln : ℚ → ℚ) (k : ℕ)
    (products : List Product) (q : Query) :
    (rank_products ln (some k) products q).map clearScore =
        products.map clearScore ∧
      rank_products ln (some 0) products q = products := by
  constructor
  · unfold rank_products
    rw [List.map_map]
    apply List.map_congr_left
    intro p _
    by_cases hp : p ∈ (effectiveFiltered products q).take k
    · simp [hp, Function.comp, clearScore_scoreProduct]
    · simp [hp, Function.comp]
  · unfold rank_products
    simp

set_option maxRecDepth 100000 in
/-- Counterexample for C9: ranking writes the computed score into the
caller's record objects; after a call on `[pX]`, the caller's record no
longer holds its original (score-free) value. -/
theorem c9_counterexample :
    rank_post_state ln0 [pX] emptyQuery =
        [{ pX with score := some (36 / 5) }] ∧
      rank_post_state ln0 [pX] emptyQuery ≠ [pX] := by
  constructor
  · with_unfolding_all decide
  · with_unfolding_all decide

/-- C9 (amended): ranking mutates its input records only through the
`score` key — after the call, every record of the caller's list holds
exactly the fields and values it held before, apart from `score`, and
the list's length and order are unchanged. -/
theorem c9_rank_mutates_only_scores (ln : ℚ → ℚ) (products : List Product)
    (q : Query) :
    (rank_post_state ln products q).map clearScore =
      products.map clearScore := by
  unfold rank_post_state
  rw [List.map_map]
  apply List.map_congr_left
  intro p _
  by_cases hp : p ∈ effectiveFiltered products q
  · simp [hp, Function.comp, clearScore_scoreProduct]
  · simp [hp, Function.comp]

/-- C7: a follow-up utterance containing "cheaper", processed against an
active query whose price ceiling is a positive `M` (and which does not
trigger the product-number dispatch), produces a refined query whose
ceiling is `M` minus the lesser of `0.2·M` and `100`. -/
theorem c7_cheaper_reduces_max (message : String) (q : Query)
    (nProducts : ℕ) (M : ℚ)
    (h1 : containsSeq (cs "cheaper") (lowerChars (cs message)) = true)
    (h2 : earlyDispatch (lowerChars (cs message)) nProducts = none)
    (h3 : q.price_range.max = some M) (h4 : 0 < M) :
    (followupModified message q nProducts).map (fun r => r.price_range.max) =
      some (some (M - min (M * (2 / 10)) 100)) := by
  have hcheap :
      anyTermIn ["cheaper", "less expensive", "lower price", "budget"]
        (lowerChars (cs message)) = true := by
    simp [anyTermIn, h1]
  have hM : M ≠ 0 := ne_of_gt h4
  unfold followupModified handle_followup_query
  simp only [h2]
  unfold mergePart
  simp only [hcheap, h3, if_true]
  rw [if_pos hM]
  simp [mergeRest]

/-- The active query of the concrete "cheaper" scenario (ceiling 500). -/
def q500 : Query :=
  { emptyQuery with
      product_type := some "laptop"
      price_range := { min := none, max := some 500 } }

/-- The refined query the scenario produces (ceiling 400). -/
def q400 : Query :=
  { emptyQuery with
      product_type := some "laptop"
      price_range := { min := none, max := some 400 } }

set_option maxRecDepth 100000 in
/-- Witness for C7: the utterance `"cheaper"` against a ceiling of 500
refines the ceiling to `500 - min(100, 100) = 400`. -/
theorem c7_cheaper_reduces_max_witness :
    (containsSeq (cs "cheaper") (lowerChars (cs "cheaper")) = true) ∧
      (earlyDispatch (lowerChars (cs "cheaper")) 0 = none) ∧
      (q500.price_range.max = some 500) ∧ ((0 : ℚ) < 500) ∧
      (followupModified "cheaper" q500 0).map (fun r => r.price_range.max) =
        some (some (500 - min ((500 : ℚ) * (2 / 10)) 100)) :=
  ⟨by with_unfolding_all decide, by with_unfolding_all decide, rfl, by norm_num,
    c7_cheaper_reduces_max "cheaper" q500 0 500
      (by with_unfolding_all decide) (by with_unfolding_all decide) rfl
      (by norm_num)⟩

set_option maxRecDepth 100000 in
/-- Counterexample for C8: the merge for the follow-up `"cheaper"` does
**not** leave the prior active query unchanged — `modified_query =
current_query.copy()` is a shallow copy, so the in-place write to the
shared `price_range` dictionary lowers the prior query's ceiling from
500 to 400 as well. -/
theorem c8_counterexample :
    followupOrigAfter "cheaper" q500 0 = some q400 ∧ q400 ≠ q500 := by
  constructor
  · with_unfolding_all decide
  · with_unfolding_all decide

/-- The product-number dispatch never produces a merge result. -/
theorem earlyDispatch_not_refined (m : Chars) (nP : ℕ) (f : FollowupOutcome)
    (a b : Query) (hED : earlyDispatch m nP = some f) :
    f ≠ FollowupOutcome.refined a b := by
  unfold earlyDispatch at hED
  cases hn : numSel m with
  | none => rw [hn] at hED; cases hED
  | some n =>
    rw [hn] at hED
    simp only [] at hED
    split_ifs at hED with hr hg1 hg2 <;>
      (cases hED; intro hc; cases hc)

/-- C8 (amended): the merge returns a fresh top-level copy — the prior
query keeps all its top-level fields (`product_type`, `rating_min`,
`exact_rating_min`, `prime_shipping`, `origin_country`, `material`,
`excluded_terms`) — but the nested `price_range` dictionary and the
`keywords` list are shared with the refined copy, so after the merge the
prior query holds exactly the refined copy's values there. -/
theorem c8_shallow_copy_merge (message : String) (q : Query) (nProducts : ℕ)
    (modified origAfter : Query)
    (h : handle_followup_query message q nProducts =
      .refined modified origAfter) :
    origAfter.product_type = q.product_type ∧
      origAfter.rating_min = q.rating_min ∧
      origAfter.exact_rating_min = q.exact_rating_min ∧
      origAfter.prime_shipping = q.prime_shipping ∧
      origAfter.origin_country = q.origin_country ∧
      origAfter.material = q.material ∧
      origAfter.excluded_terms = q.excluded_terms ∧
      origAfter.price_range = modified.price_range ∧
      origAfter.keywords = modified.keywords := by
  have hRest : ∀ (m : Chars) (pr : PriceRange),
      mergeRest m q pr = .refined modified origAfter →
        origAfter.product_type = q.product_type ∧
        origAfter.rating_min = q.rating_min ∧
        origAfter.exact_rating_min = q.exact_rating_min ∧
        origAfter.prime_shipping = q.prime_shipping ∧
        origAfter.origin_country = q.origin_country ∧
        origAfter.material = q.material ∧
        origAfter.excluded_terms = q.excluded_terms ∧
        origAfter.price_range = modified.price_range ∧
        origAfter.keywords = modified.keywords := by
    intro m pr hr
    unfold mergeRest at hr
    injection hr with hm ho
    subst hm
    subst ho
    refine ⟨rfl, ?_, ?_, ?_, rfl, rfl, rfl, rfl, rfl⟩ <;> rfl
  unfold handle_followup_query at h
  simp only [] at h
  cases hED : earlyDispatch (lowerChars (cs message)) nProducts with
  | some out =>
    rw [hED] at h
    simp only [] at h
    exact absurd h (earlyDispatch_not_refined _ _ _ _ _ hED)
  | none =>
    rw [hED] at h
    simp only [] at h
    unfold mergePart at h
    split_ifs at h with hc he
    · cases hmax : q.price_range.max with
      | none => rw [hmax] at h; simp only [] at h; exact hRest _ _ h
      | some cmax =>
        rw [hmax] at h
        simp only [] at h
        split_ifs at h with h0
        · exact hRest _ _ h
        · exact hRest _ _ h
    · cases hmin : q.price_range.min with
      | none => rw [hmin] at h; simp only [] at h; cases h
      | some cmin => rw [hmin] at h; simp only [] at h; exact hRest _ _ h
    · exact hRest _ _ h

set_option maxRecDepth 100000 in
/-- Witness for the amended C8: on the "cheaper" scenario the merge
yields `.refined q400 q400`, and the theorem's field equations hold
there. -/
theorem c8_shallow_copy_merge_witness :
    (handle_followup_query "cheaper" q500 0 =
        FollowupOutcome.refined q400 q400) ∧
      (q400.product_type = q500.product_type ∧
        q400.rating_min = q500.rating_min ∧
        q400.exact_rating_min = q500.exact_rating_min ∧
        q400.prime_shipping = q500.prime_shipping ∧
        q400.origin_country = q500.origin_country ∧
        q400.material = q500.material ∧
        q400.excluded_terms = q500.excluded_terms ∧
        q400.price_range = q400.price_range ∧
        q400.keywords = q400.keywords) :=
  ⟨by with_unfolding_all decide,
    c8_shallow_copy_merge "cheaper" q500 0 q400 q400
      (by with_unfolding_all decide)⟩

/-- A research oracle for the concrete C1 trace. -/
def oracle0 : String → RRec := fun _ => "r"

/-- A linked product for the C1 trace. -/
def pL1 : Product :=
  { title := "a", price_value := 0, rating_value := 0, review_count := 0,
    has_prime := false, link := "L1", score := none }

/-- A second linked product for the C1 trace. -/
def pL2 : Product :=
  { title := "b", price_value := 0, rating_value := 0, review_count := 0,
    has_prime := false, link := "L2", score := none }

/-- Session after a "specs" request researched `pL1`. -/
def c1AfterSpecs : Session := research_product_path oracle0 emptySession pL1

/-- Session after a subsequent "compare" request over `[pL1, pL2]`. -/
def c1AfterCompare : Session :=
  compare_products_deeply_path oracle0 c1AfterSpecs [pL1, pL2]

/-- C1 (evaluation of the failing trace): after the "specs" path stored
link `L1`'s ResearchRecord in the session cache (one collaborator call),
a subsequent "compare" over `[pL1, pL2]` invokes the deep-research
collaborator for `L1` **again** — `compare_multiple_products` re-invokes
`research_product` for every compared product without consulting the
cache — for a session total of two collaborator calls on the cached
link, contradicting the at-most-once claim. -/
theorem c1_compare_recalls_cached_link :
    (c1AfterSpecs.cache.lookup "L1").isSome = true ∧
      c1AfterSpecs.calls.count "L1" = 1 ∧
      c1AfterCompare.calls.count "L1" = 2 := by
  refine ⟨?_, ?_, ?_⟩ <;> with_unfolding_all decide
